import Mathlib

/-
  Verification development for the route-segment resolution algorithm of the
  routing-demo repository. The repository demonstrates file-system routing
  conventions (static, dynamic, catch-all, group, private, parallel-slot and
  intercepting segments); its specification describes the resolver those
  conventions imply. The resolver itself is not shipped as code, so the
  definitions below are modelled from the specification text (sections 3,
  4.1 to 4.4 and 7). The two page components that do contain logic
  (the Review page and ComplexDashboardLayout) are embedded directly from
  their TypeScript source near the end of the definitions.
-/

namespace Routing

/-- Modelled from the spec: the kind of a route-tree node (spec section 3,
RouteNode.kind). Parallel slots are stored in a separate field of the node
(the parallelSlots mapping of the spec), so they need no kind constructor. -/
inductive SegKind where
  | static
  | dynamic
  | catchAll
  | group
  | priv
  | intercept
deriving DecidableEq

/-- Modelled from the spec: a parameter value is a string (dynamic segment)
or an ordered sequence of strings (catch-all segment), spec section 3. -/
inductive PVal where
  | str (v : String)
  | seq (vs : List String)
deriving DecidableEq

mutual
/-- Modelled from the spec: a node of the static route tree (spec section 3).
Fields: kind; interceptDepth (some d for finite depth, none for the root
marker written as infinity in the spec, meaningful only for intercept kind);
iseg, the URL segment an intercept node shadows; hasPage; hasNotFound, does
this node declare a not-found boundary; hasDefault, does this node declare a
default-fallback for slot resolution; children, the mapping from segment
label to child node (the label is the literal segment for static nodes and
the parameter name for dynamic and catch-all nodes); slots, the mapping from
slot name to slot-subtree root. Render-only flags of the spec
(hasLayout, hasTemplate, hasLoading, hasError) do not participate in
resolution and are omitted. -/
inductive RouteNode where
  | mk (kind : SegKind) (idepth : Option Nat) (iseg : String)
       (hasPage hasNotFound hasDefault : Bool)
       (children slots : Children) : RouteNode

/-- Modelled from the spec: an association list from segment or slot labels
to route nodes (the mappings of spec section 3). -/
inductive Children where
  | nil : Children
  | cons (label : String) (node : RouteNode) (rest : Children) : Children
end

def RouteNode.kind : RouteNode → SegKind
  | .mk k _ _ _ _ _ _ _ => k

def RouteNode.idepth : RouteNode → Option Nat
  | .mk _ d _ _ _ _ _ _ => d

def RouteNode.iseg : RouteNode → String
  | .mk _ _ i _ _ _ _ _ => i

def RouteNode.hasPage : RouteNode → Bool
  | .mk _ _ _ p _ _ _ _ => p

def RouteNode.hasNotFound : RouteNode → Bool
  | .mk _ _ _ _ n _ _ _ => n

def RouteNode.hasDefault : RouteNode → Bool
  | .mk _ _ _ _ _ f _ _ => f

def RouteNode.children : RouteNode → Children
  | .mk _ _ _ _ _ _ c _ => c

def RouteNode.slots : RouteNode → Children
  | .mk _ _ _ _ _ _ _ s => s

/-- Modelled from the spec: the outcome of resolving one parallel slot
(spec sections 4.3 and 7): a match (recorded as the matched leaf and the
parameters it binds), the nearest default-fallback node, or the explicit
slot-not-matched marker SlotUnresolved. -/
inductive SlotResult where
  | matched (leaf : RouteNode) (params : List (String × PVal))
  | fallback (node : RouteNode)
  | unresolved

/-- Modelled from the spec: the outcome of a resolution (spec sections 3 and
7): either a match, carrying the layout chain from root to leaf, the matched
leaf, the extracted path parameters and the slot assignments collected along
the chain, or NotFound, carrying the nearest enclosing not-found-boundary
node (none stands for the global not-found boundary). NotFound is a normal
variant of the result, not an exception. -/
inductive Outcome where
  | ok (chain : List RouteNode) (leaf : RouteNode)
       (params : List (String × PVal)) (slotResults : List (String × SlotResult))
  | notFound (boundary : Option RouteNode)

mutual
/-- Modelled from the spec: the children a matcher level actually sees
(spec section 4.1): group children are descended into without consuming a
segment, so their own effective children are spliced into this level, and
private children are never visited. -/
def effChildren : RouteNode → List (String × RouteNode)
  | .mk _ _ _ _ _ _ cs _ => effChildrenC cs

/-- Modelled from the spec: effChildren lifted over a child list. -/
def effChildrenC : Children → List (String × RouteNode)
  | .nil => []
  | .cons label nd rest =>
    if nd.kind = SegKind.group then effChildren nd ++ effChildrenC rest
    else if nd.kind = SegKind.priv then effChildrenC rest
    else (label, nd) :: effChildrenC rest
end

/-- Modelled from the spec: the literal-match static child for a segment
(spec section 4.1, literal preferred first). -/
def findStaticIn : List (String × RouteNode) → String → Option RouteNode
  | [], _ => none
  | (label, nd) :: rest, s =>
    if nd.kind = SegKind.static then
      if label = s then some nd else findStaticIn rest s
    else findStaticIn rest s

/-- Modelled from the spec: the dynamic child of a level, with its parameter
name (spec section 4.1; at most one exists in a well-formed tree). -/
def findDynamicIn : List (String × RouteNode) → Option (String × RouteNode)
  | [] => none
  | (label, nd) :: rest =>
    if nd.kind = SegKind.dynamic then some (label, nd) else findDynamicIn rest

/-- Modelled from the spec: the catch-all child of a level, with its
parameter name (spec section 4.1). -/
def findCatchAllIn : List (String × RouteNode) → Option (String × RouteNode)
  | [] => none
  | (label, nd) :: rest =>
    if nd.kind = SegKind.catchAll then some (label, nd) else findCatchAllIn rest

/-- Modelled from the spec: an intercept child of a level that shadows the
given segment at the given depth (spec section 4.4). -/
def findInterceptIn : List (String × RouteNode) → Option Nat → String → Option RouteNode
  | [], _, _ => none
  | (_, nd) :: rest, d, seg =>
    if nd.kind = SegKind.intercept ∧ nd.idepth = d ∧ nd.iseg = seg then some nd
    else findInterceptIn rest d seg

/-- Modelled from the spec: the matcher of section 4.1 run inside one slot
subtree (spec section 4.3), threading the nearest default-fallback node seen
on the attempted chain. A zero-segment catch-all never matches (default
zero-segment policy of spec section 4.2). -/
def matchSlotGo : RouteNode → List String → List (String × PVal) → Option RouteNode → SlotResult
  | n, [], params, fb =>
    let fb2 := if n.hasDefault then some n else fb
    if n.hasPage then SlotResult.matched n params
    else
      match fb2 with
      | some f => SlotResult.fallback f
      | none => SlotResult.unresolved
  | n, s :: rest, params, fb =>
    let fb2 := if n.hasDefault then some n else fb
    let ec := effChildren n
    match findStaticIn ec s with
    | some c => matchSlotGo c rest params fb2
    | none =>
      match findDynamicIn ec with
      | some (pn, c) => matchSlotGo c rest (params ++ [(pn, PVal.str s)]) fb2
      | none =>
        match findCatchAllIn ec with
        | some (pn, c) =>
          if c.hasPage then SlotResult.matched c (params ++ [(pn, PVal.seq (s :: rest))])
          else
            match (if c.hasDefault then some c else fb2) with
            | some f => SlotResult.fallback f
            | none => SlotResult.unresolved
        | none =>
          match fb2 with
          | some f => SlotResult.fallback f
          | none => SlotResult.unresolved

/-- Modelled from the spec: resolve one slot subtree against the remaining
path suffix (spec section 4.3). -/
def matchSlot (n : RouteNode) (suffix : List String) : SlotResult :=
  matchSlotGo n suffix [] none

/-- Modelled from the spec: resolve every declared slot of a node
independently against the same remaining suffix (spec section 4.3); each
entry depends only on that slot and the suffix. -/
def resolveSlots : Children → List String → List (String × SlotResult)
  | .nil, _ => []
  | .cons name nd rest, suffix => (name, matchSlot nd suffix) :: resolveSlots rest suffix

/-- Modelled from the spec: the route tree matcher of spec section 4.1 for a
page request. Arguments: current node, remaining segments, parameters bound
so far, chain matched so far, nearest not-found boundary seen so far, slot
assignments collected so far. At each level a literal static child is
preferred, then the dynamic child, then the catch-all child, which consumes
every remaining segment (at least one). On full consumption a node without a
page is NotFound for a page request. Group children are transparent and
private children invisible (through effChildren). -/
def resolveSegs : RouteNode → List String → List (String × PVal) → List RouteNode →
    Option RouteNode → List (String × SlotResult) → Outcome
  | n, [], params, chain, nf, acc =>
    let nf2 := if n.hasNotFound then some n else nf
    let acc2 := acc ++ resolveSlots n.slots []
    if n.hasPage then Outcome.ok (chain ++ [n]) n params acc2
    else Outcome.notFound nf2
  | n, s :: rest, params, chain, nf, acc =>
    let nf2 := if n.hasNotFound then some n else nf
    let acc2 := acc ++ resolveSlots n.slots (s :: rest)
    let ec := effChildren n
    match findStaticIn ec s with
    | some c => resolveSegs c rest params (chain ++ [n]) nf2 acc2
    | none =>
      match findDynamicIn ec with
      | some (pn, c) => resolveSegs c rest (params ++ [(pn, PVal.str s)]) (chain ++ [n]) nf2 acc2
      | none =>
        match findCatchAllIn ec with
        | some (pn, c) =>
          if c.hasPage then
            Outcome.ok (chain ++ [n, c]) c (params ++ [(pn, PVal.seq (s :: rest))])
              (acc2 ++ resolveSlots c.slots [])
          else Outcome.notFound (if c.hasNotFound then some c else nf2)
        | none => Outcome.notFound nf2

/-- The chain of a resolution outcome (empty for NotFound). -/
def chainOf : Outcome → List RouteNode
  | Outcome.ok chain _ _ _ => chain
  | Outcome.notFound _ => []

/-- The matched leaf of a resolution outcome. -/
def leafOf : Outcome → Option RouteNode
  | Outcome.ok _ leaf _ _ => some leaf
  | Outcome.notFound _ => none

/-- The extracted path parameters of a resolution outcome. -/
def paramsOf : Outcome → List (String × PVal)
  | Outcome.ok _ _ params _ => params
  | Outcome.notFound _ => []

/-- The slot assignments of a resolution outcome. -/
def slotResultsOf : Outcome → List (String × SlotResult)
  | Outcome.ok _ _ _ slotResults => slotResults
  | Outcome.notFound _ => []

/-- Whether an outcome is the NotFound variant. -/
def isNotFoundO : Outcome → Bool
  | Outcome.ok _ _ _ _ => false
  | Outcome.notFound _ => true

mutual
/-- Structural equality test on route nodes, used to check whether a chain
passes through a given ancestor. -/
def beqNode : RouteNode → RouteNode → Bool
  | .mk k1 d1 i1 p1 n1 f1 c1 s1, .mk k2 d2 i2 p2 n2 f2 c2 s2 =>
    k1 == k2 && d1 == d2 && i1 == i2 && p1 == p2 && n1 == n2 && f1 == f2 &&
      beqChildren c1 c2 && beqChildren s1 s2

/-- Structural equality test on child lists. -/
def beqChildren : Children → Children → Bool
  | .nil, .nil => true
  | .cons a x r, .cons b y t => a == b && beqNode x y && beqChildren r t
  | _, _ => false
end

/-- Modelled from the spec: a parsed URL, the form in which the core consumes
a request (spec sections 1 and 6): ordered path segments plus query-string
parameters, parsed independently of path matching (spec section 4.2). -/
structure Url where
  path : List String
  query : List (String × String)

/-- Modelled from the spec: a NavigationEvent (spec section 3): target URL,
origin path when present (absent means a direct load or refresh) and the
client-transition flag. -/
structure NavEvent where
  target : Url
  origin : Option (List String)
  isClientTransition : Bool

/-- Modelled from the spec: a ResolvedRoute (spec sections 3 and 4.4): the
resolution outcome, the URL reported for history and back-navigation
purposes (always the target path, never an intercept-specific path) and the
query parameters, which only the leaf page consumer receives. -/
structure ResolvedRoute where
  outcome : Outcome
  url : List String
  query : List (String × String)

/-- Modelled from the spec: matcher 4.1 run on the real tree from the root;
intercept nodes are never selected because no find function matches their
kind. -/
def baseOutcome (t : RouteNode) (p : List String) : Outcome :=
  resolveSegs t p [] [] none []

/-- Modelled from the spec: does the resolution of the origin path pass
through the given ancestor node (the origin-consistency condition of spec
section 4.4)? -/
def originHas (t : RouteNode) (op : List String) (A : RouteNode) : Bool :=
  match baseOutcome t op with
  | Outcome.ok chain _ _ _ => chain.any (fun m => beqNode m A)
  | Outcome.notFound _ => false

/-- Modelled from the spec: an intercept child of the given ancestor that
shadows the given segment at the given depth (spec section 4.4). -/
def interceptChildOf (A : RouteNode) (d : Option Nat) (seg : String) : Option RouteNode :=
  findInterceptIn (effChildren A) d seg

/-- Modelled from the spec: scan the ancestors of the would-be matched node,
nearest first, for an intercept child whose interceptDepth equals its
distance d from that node (spec section 4.4); returns the ancestor together
with the intercept node. -/
def interceptScan : List RouteNode → Nat → String → Option (RouteNode × RouteNode)
  | [], _, _ => none
  | A :: rs, d, seg =>
    match interceptChildOf A (some d) seg with
    | some iN => some (A, iN)
    | none => interceptScan rs (d + 1) seg

/-- Modelled from the spec: the root-level intercept marker, interceptDepth
infinity, which applies regardless of origin depth (spec section 4.4). -/
def rootInfIntercept : List RouteNode → String → Option RouteNode
  | [], _ => none
  | r :: _, seg => interceptChildOf r none seg

/-- Modelled from the spec: choose the intercept node that shadows the real
match, if any (spec section 4.4): a finite-depth candidate applies only when
the origin resolution passes through its ancestor; otherwise the root
infinity marker applies unconditionally; otherwise the real node stands. -/
def pickIntercept (t : RouteNode) (chain : List RouteNode) (seg : String)
    (op : List String) : Option RouteNode :=
  match interceptScan chain.dropLast.reverse 0 seg with
  | some (A, iN) => if originHas t op A then some iN else rootInfIntercept chain seg
  | none => rootInfIntercept chain seg

/-- Modelled from the spec: full resolution of a NavigationEvent (spec
sections 4.1 to 4.4). Matcher 4.1 runs on the real tree; only on a client
transition with an origin present may a declared intercept node shadow the
matched leaf, and the URL reported for history purposes is always the target
path. -/
def resolve (t : RouteNode) (ev : NavEvent) : ResolvedRoute :=
  let base := baseOutcome t ev.target.path
  let out :=
    if ev.isClientTransition then
      match ev.origin with
      | some op =>
        match base, ev.target.path.getLast? with
        | Outcome.ok chain leaf params slotResults, some seg =>
          match pickIntercept t chain seg op with
          | some iN => Outcome.ok (chain.dropLast ++ [iN]) iN params slotResults
          | none => Outcome.ok chain leaf params slotResults
        | _, _ => base
      | none => base
    else base
  ⟨out, ev.target.path, ev.target.query⟩

/-- A plain non-client navigation to a path with no query and no origin. -/
def navTo (p : List String) : NavEvent :=
  ⟨⟨p, []⟩, none, false⟩

/-- Modelled from the spec: what ancestor layout consumers receive from a
resolution, namely each chain node together with the path parameters only;
query parameters are never delivered to layouts (spec section 4.2). -/
def layoutInputs (r : ResolvedRoute) : List (RouteNode × List (String × PVal)) :=
  (chainOf r.outcome).map (fun n => (n, paramsOf r.outcome))

/-- Modelled from the spec: what the leaf page consumer receives from a
resolution, namely the path parameters together with the query parameters
(spec section 4.2). -/
def pageInput (r : ResolvedRoute) : Option (List (String × PVal) × List (String × String)) :=
  match leafOf r.outcome with
  | some _ => some (paramsOf r.outcome, r.query)
  | none => none

/-- First-match association-list lookup. -/
def lookupA {α : Type} : List (String × α) → String → Option α
  | [], _ => none
  | (k, v) :: rest, s => if k = s then some v else lookupA rest s

/-- Association-list lookup over a Children list. -/
def lookupC : Children → String → Option RouteNode
  | .nil, _ => none
  | .cons k v rest, s => if k = s then some v else lookupC rest s

/-- The real page node for the photo path in the interception scenario of
spec section 8. -/
def photoNode : RouteNode :=
  RouteNode.mk SegKind.static none "" true false false Children.nil Children.nil

/-- The intercept node at interceptDepth 0 shadowing the photo segment. -/
def interceptPhoto : RouteNode :=
  RouteNode.mk SegKind.intercept (some 0) "photo" true false false Children.nil Children.nil

/-- The feed node: parent of both the real photo node and its same-level
intercept node. -/
def feedNode : RouteNode :=
  RouteNode.mk SegKind.static none "" true false false
    (Children.cons "photo" photoNode (Children.cons "iphoto" interceptPhoto Children.nil))
    Children.nil

/-- A route tree holding both an intercept node at interceptDepth 0 for the
feed photo path and the real node at the same path. -/
def feedTree : RouteNode :=
  RouteNode.mk SegKind.static none "" false false false
    (Children.cons "feed" feedNode Children.nil) Children.nil

/-- A direct load (no client transition) of the feed photo path. -/
def evDirect : NavEvent := ⟨⟨["feed", "photo"], []⟩, some ["feed"], false⟩

/-- A client transition to the feed photo path originating at the feed page,
an origin consistent with the intercept ancestor. -/
def evClient : NavEvent := ⟨⟨["feed", "photo"], []⟩, some ["feed"], true⟩

/-- The catch-all node declared under the docs segment, as in the
app docs route of the repository. -/
def slugNode : RouteNode :=
  RouteNode.mk SegKind.catchAll none "" true false false Children.nil Children.nil

/-- The docs node: no page of its own, one catch-all child bound to the
parameter name slug. -/
def docsNode : RouteNode :=
  RouteNode.mk SegKind.static none "" false false false
    (Children.cons "slug" slugNode Children.nil) Children.nil

/-- A route tree with a catch-all segment declared under the docs path. -/
def docsTree : RouteNode :=
  RouteNode.mk SegKind.static none "" false false false
    (Children.cons "docs" docsNode Children.nil) Children.nil

/-- The dynamic articleId node under the articles segment, mirroring the
articles route of the repository. -/
def articleIdNode : RouteNode :=
  RouteNode.mk SegKind.dynamic none "" true false false Children.nil Children.nil

/-- The articles node with its dynamic child. -/
def articlesNode : RouteNode :=
  RouteNode.mk SegKind.static none "" true false false
    (Children.cons "articleId" articleIdNode Children.nil) Children.nil

/-- A route tree with the articles dynamic route, used to show that query
parameters reach the page but never a layout. -/
def articlesTree : RouteNode :=
  RouteNode.mk SegKind.static none "" false false false
    (Children.cons "articles" articlesNode Children.nil) Children.nil

/-- Navigation to an article with an English query parameter. -/
def evLangEn : NavEvent := ⟨⟨["articles", "breaking-news-123"], [("lang", "en")]⟩, none, false⟩

/-- Navigation to the same article with a Spanish query parameter. -/
def evLangEs : NavEvent := ⟨⟨["articles", "breaking-news-123"], [("lang", "es")]⟩, none, false⟩

/-- Slot root for the slot named at-a: declares a default-fallback, matches
nothing. -/
def slotARoot : RouteNode :=
  RouteNode.mk SegKind.static none "" false false true Children.nil Children.nil

/-- Slot root for the slot named at-b: no default-fallback, matches
nothing. -/
def slotBRoot : RouteNode :=
  RouteNode.mk SegKind.static none "" false false false Children.nil Children.nil

/-- The page node reached by the implicit children slot in the parallel-slot
scenario. -/
def yNode : RouteNode :=
  RouteNode.mk SegKind.static none "" true false false Children.nil Children.nil

/-- The layout node declaring the two parallel slots, with a child for the
implicit children slot. -/
def xNode : RouteNode :=
  RouteNode.mk SegKind.static none "" true false false
    (Children.cons "y" yNode Children.nil)
    (Children.cons "@a" slotARoot (Children.cons "@b" slotBRoot Children.nil))

/-- A route tree whose x node declares parallel slots at-a (with fallback)
and at-b (without), neither matching the remaining suffix. -/
def xyTree : RouteNode :=
  RouteNode.mk SegKind.static none "" false false false
    (Children.cons "x" xNode Children.nil) Children.nil

/-- A leaf page node with no boundaries, used in the not-found scenario. -/
def bNode : RouteNode :=
  RouteNode.mk SegKind.static none "" true false false Children.nil Children.nil

/-- A node declaring a not-found boundary, ancestor of bNode. -/
def aNode : RouteNode :=
  RouteNode.mk SegKind.static none "" true true false
    (Children.cons "b" bNode Children.nil) Children.nil

/-- A route tree whose a node declares a not-found boundary while the root
declares none. -/
def nfTree : RouteNode :=
  RouteNode.mk SegKind.static none "" false false false
    (Children.cons "a" aNode Children.nil) Children.nil

/-- The login page node placed under the auth group. -/
def loginNode : RouteNode :=
  RouteNode.mk SegKind.static none "" true false false Children.nil Children.nil

/-- A login page node placed under a dynamic sibling, used in the group
counterexample. -/
def loginNode2 : RouteNode :=
  RouteNode.mk SegKind.static none "" true false false Children.nil Children.nil

/-- A dynamic root child whose subtree contains its own login page. -/
def dynXNode : RouteNode :=
  RouteNode.mk SegKind.dynamic none "" true false false
    (Children.cons "login" loginNode2 Children.nil) Children.nil

/-- The auth group node with its static login child. -/
def authGroupNode : RouteNode :=
  RouteNode.mk SegKind.group none "" false false false
    (Children.cons "login" loginNode Children.nil) Children.nil

/-- A route tree containing the auth group with a login page and also a
dynamic root child: the dynamic child can match the literal group segment,
refuting the universal NotFound claim for group-named paths. -/
def groupCexTree : RouteNode :=
  RouteNode.mk SegKind.static none "" false false false
    (Children.cons "(auth)" authGroupNode (Children.cons "x" dynXNode Children.nil))
    Children.nil

/-- A route tree whose only root child is the auth group with the given
login node as its only child. -/
def authLoginTree (L : RouteNode) : RouteNode :=
  RouteNode.mk SegKind.static none "" false false false
    (Children.cons "(auth)"
      (RouteNode.mk SegKind.group none "" false false false
        (Children.cons "login" L Children.nil) Children.nil)
      Children.nil)
    Children.nil

/-- A private node that itself has a page, used in the private-segment
counterexample. -/
def privLibNode : RouteNode :=
  RouteNode.mk SegKind.priv none "" true false false Children.nil Children.nil

/-- A route tree containing the private lib node next to a dynamic root
child with a page: the dynamic child matches the literal lib segment. -/
def privCexTree : RouteNode :=
  RouteNode.mk SegKind.static none "" false false false
    (Children.cons "_lib" privLibNode
      (Children.cons "x" (RouteNode.mk SegKind.dynamic none "" true false false
        Children.nil Children.nil) Children.nil))
    Children.nil

/-- A route tree whose only root child is the given private node under the
lib label. -/
def onlyPrivTree (c : RouteNode) : RouteNode :=
  RouteNode.mk SegKind.static none "" false false false
    (Children.cons "_lib" c Children.nil) Children.nil

/-- The longest leading run of decimal digits of a character list, as the
parseInt digit scan of JavaScript takes it. -/
def leadingDigits : List Char → List Char
  | [] => []
  | c :: cs => if c.isDigit then c :: leadingDigits cs else []

/-- The natural number denoted by a list of decimal digit characters. -/
def digitsToNat (ds : List Char) : Nat :=
  ds.foldl (fun a c => a * 10 + (c.toNat - 48)) 0

/-- The ECMAScript StrWhiteSpaceChar set skipped by parseInt: tab, line
feed, vertical tab, form feed, carriage return, space, no-break space,
Ogham space mark, the en-quad to hair-space range, line separator,
paragraph separator, narrow no-break space, medium mathematical space,
ideographic space and the byte order mark. -/
def jsWhitespace (c : Char) : Bool :=
  decide (c.toNat = 9) || decide (c.toNat = 10) || decide (c.toNat = 11) ||
  decide (c.toNat = 12) || decide (c.toNat = 13) || decide (c.toNat = 32) ||
  decide (c.toNat = 160) || decide (c.toNat = 5760) ||
  (decide (8192 ≤ c.toNat) && decide (c.toNat ≤ 8202)) ||
  decide (c.toNat = 8232) || decide (c.toNat = 8233) || decide (c.toNat = 8239) ||
  decide (c.toNat = 8287) || decide (c.toNat = 12288) || decide (c.toNat = 65279)

/-- A hexadecimal digit as parseInt accepts it in base 16: a decimal digit
or a letter from a to f in either case. -/
def isHexDigitJS (c : Char) : Bool :=
  c.isDigit || (decide (97 ≤ c.toNat) && decide (c.toNat ≤ 102)) ||
    (decide (65 ≤ c.toNat) && decide (c.toNat ≤ 70))

/-- The longest leading run of hexadecimal digits of a character list. -/
def leadingHexDigits : List Char → List Char
  | [] => []
  | c :: cs => if isHexDigitJS c then c :: leadingHexDigits cs else []

/-- The numeric value of one hexadecimal digit character. -/
def hexVal (c : Char) : Nat :=
  if c.isDigit then c.toNat - 48
  else if 97 ≤ c.toNat then c.toNat - 87
  else c.toNat - 55

/-- The natural number denoted by a list of hexadecimal digit characters. -/
def hexDigitsToNat (ds : List Char) : Nat :=
  ds.foldl (fun a c => a * 16 + hexVal c) 0

/-- The magnitude scan of ECMAScript parseInt called without a radix, after
whitespace and sign have been removed: a leading 0x or 0X prefix switches to
base 16 and is stripped, otherwise the longest leading decimal digit run is
converted; the result is NaN, here none, when the digit run is empty. -/
def parseIntNoSign : List Char → Option Nat
  | '0' :: x :: rest =>
    if x = 'x' ∨ x = 'X' then
      match leadingHexDigits rest with
      | [] => none
      | ds => some (hexDigitsToNat ds)
    else
      match leadingDigits ('0' :: x :: rest) with
      | [] => none
      | ds => some (digitsToNat ds)
  | cs =>
    match leadingDigits cs with
    | [] => none
    | ds => some (digitsToNat ds)

/-- The parseInt function of JavaScript called without a radix, as the
Review page calls it: ECMAScript whitespace is skipped, an optional sign is
read, then the magnitude is parsed with automatic 0x or 0X hexadecimal
prefix detection; the result is NaN, here none, when no digits follow. -/
def parseIntJS (s : String) : Option Int :=
  let cs := s.data.dropWhile (fun c => jsWhitespace c)
  match cs with
  | '-' :: rest => (parseIntNoSign rest).map (fun n => -(Int.ofNat n))
  | '+' :: rest => (parseIntNoSign rest).map (fun n => Int.ofNat n)
  | _ => (parseIntNoSign cs).map (fun n => Int.ofNat n)

/-- The observable output of the Review page component: either the
notFound() boundary invocation or the review heading built from the two
route parameters. -/
inductive ReviewOutput where
  | notFoundCall
  | heading (reviewId productId : String)
deriving DecidableEq

/-- The Review page component of
src/app/(main)/products/[productId]/reviews/[reviewId]/page.tsx: it returns
notFound() when parseInt(reviewId) is at least 1000 and otherwise renders
the heading with reviewId and productId. A NaN comparison is false in
JavaScript, so a failed parse renders the heading. -/
def Review (reviewId productId : String) : ReviewOutput :=
  match parseIntJS reviewId with
  | some v => if 1000 ≤ v then ReviewOutput.notFoundCall
              else ReviewOutput.heading reviewId productId
  | none => ReviewOutput.heading reviewId productId

/-- A rendered React tree: a text node or an element with a tag and child
nodes. -/
inductive RNode where
  | text (s : String)
  | elem (tag : String) (kids : List RNode)

/-- The ComplexDashboardLayout component of
src/app/(main)/complex-dashboard/layout.tsx: isAuthenticated is hard-coded
to false, so the component returns the login slot content; the authenticated
branch that would lay out children, users, revenue and notifications is
never taken. -/
def ComplexDashboardLayout (children users revenue notifications login : RNode) : RNode :=
  let isAuthenticated := false
  if isAuthenticated then
    RNode.elem "div"
      [RNode.elem "header" [RNode.text "Complex Dashboard"],
       children,
       RNode.elem "div"
         [RNode.elem "div" [RNode.elem "div" [users], RNode.elem "div" [revenue]],
          RNode.elem "div" [notifications]]]
  else login

/-- A literal-match result has static kind. -/
theorem findStaticIn_kind (l : List (String × RouteNode)) (s : String) (c : RouteNode)
    (h : findStaticIn l s = some c) : c.kind = SegKind.static := by
  induction l with
  | nil => simp [findStaticIn] at h
  | cons hd tl ih =>
    obtain ⟨nm, nd⟩ := hd
    by_cases hk : nd.kind = SegKind.static
    · by_cases hn : nm = s
      · simp only [findStaticIn, if_pos hk, if_pos hn, Option.some.injEq] at h
        exact h ▸ hk
      · simp only [findStaticIn, if_pos hk, if_neg hn] at h
        exact ih h
    · simp only [findStaticIn, if_neg hk] at h
      exact ih h

/-- A dynamic-child lookup result has dynamic kind. -/
theorem findDynamicIn_kind (l : List (String × RouteNode)) (pn : String) (c : RouteNode)
    (h : findDynamicIn l = some (pn, c)) : c.kind = SegKind.dynamic := by
  induction l with
  | nil => simp [findDynamicIn] at h
  | cons hd tl ih =>
    obtain ⟨nm, nd⟩ := hd
    by_cases hk : nd.kind = SegKind.dynamic
    · simp only [findDynamicIn, if_pos hk, Option.some.injEq, Prod.mk.injEq] at h
      exact h.2 ▸ hk
    · simp only [findDynamicIn, if_neg hk] at h
      exact ih h

/-- A catch-all-child lookup result has catch-all kind. -/
theorem findCatchAllIn_kind (l : List (String × RouteNode)) (pn : String) (c : RouteNode)
    (h : findCatchAllIn l = some (pn, c)) : c.kind = SegKind.catchAll := by
  induction l with
  | nil => simp [findCatchAllIn] at h
  | cons hd tl ih =>
    obtain ⟨nm, nd⟩ := hd
    by_cases hk : nd.kind = SegKind.catchAll
    · simp only [findCatchAllIn, if_pos hk, Option.some.injEq, Prod.mk.injEq] at h
      exact h.2 ▸ hk
    · simp only [findCatchAllIn, if_neg hk] at h
      exact ih h

/-- Every node the matcher adds to the chain beyond its starting point and
the already-accumulated prefix is of static, dynamic or catch-all kind:
group, private and intercept nodes are never matched into the chain. -/
theorem resolveSegs_chain :
    ∀ (segs : List String) (n : RouteNode) (params : List (String × PVal))
      (chain : List RouteNode) (nf : Option RouteNode)
      (acc : List (String × SlotResult)) (m : RouteNode),
      m ∈ chainOf (resolveSegs n segs params chain nf acc) →
        m ∈ chain ∨ m = n ∨ m.kind = SegKind.static ∨ m.kind = SegKind.dynamic ∨
          m.kind = SegKind.catchAll := by
  intro segs
  induction segs with
  | nil =>
    intro n params chain nf acc m hm
    simp only [resolveSegs] at hm
    split at hm
    · simp only [chainOf] at hm
      rcases List.mem_append.1 hm with h | h
      · exact Or.inl h
      · simp only [List.mem_singleton] at h
        exact Or.inr (Or.inl h)
    · simp [chainOf] at hm
  | cons s rest ih =>
    intro n params chain nf acc m hm
    simp only [resolveSegs] at hm
    cases hs : findStaticIn (effChildren n) s with
    | some c =>
      simp only [hs] at hm
      rcases ih c params (chain ++ [n]) _ _ m hm with h | h | h
      · rcases List.mem_append.1 h with h1 | h1
        · exact Or.inl h1
        · simp only [List.mem_singleton] at h1
          exact Or.inr (Or.inl h1)
      · exact Or.inr (Or.inr (Or.inl (h ▸ findStaticIn_kind _ _ _ hs)))
      · exact Or.inr (Or.inr h)
    | none =>
      simp only [hs] at hm
      cases hd : findDynamicIn (effChildren n) with
      | some pc =>
        obtain ⟨pn, c⟩ := pc
        simp only [hd] at hm
        rcases ih c _ (chain ++ [n]) _ _ m hm with h | h | h
        · rcases List.mem_append.1 h with h1 | h1
          · exact Or.inl h1
          · simp only [List.mem_singleton] at h1
            exact Or.inr (Or.inl h1)
        · exact Or.inr (Or.inr (Or.inr (Or.inl (h ▸ findDynamicIn_kind _ _ _ hd))))
        · exact Or.inr (Or.inr h)
      | none =>
        simp only [hd] at hm
        cases hc : findCatchAllIn (effChildren n) with
        | some pc =>
          obtain ⟨pn, c⟩ := pc
          simp only [hc] at hm
          split at hm
          · simp only [chainOf] at hm
            rcases List.mem_append.1 hm with h1 | h1
            · exact Or.inl h1
            · rcases List.mem_cons.1 h1 with h2 | h2
              · exact Or.inr (Or.inl h2)
              · simp only [List.mem_singleton] at h2
                exact Or.inr (Or.inr (Or.inr (Or.inr (h2 ▸ findCatchAllIn_kind _ _ _ hc))))
          · simp [chainOf] at hm
        | none =>
          simp only [hc] at hm
          simp [chainOf] at hm

/-- The not-found boundary the matcher returns always satisfies the
invariant of its threaded boundary argument: it is a node that declares a
not-found boundary. -/
theorem resolveSegs_nf :
    ∀ (segs : List String) (n : RouteNode) (params : List (String × PVal))
      (chain : List RouteNode) (nf : Option RouteNode)
      (acc : List (String × SlotResult)),
      (∀ x, nf = some x → x.hasNotFound = true) →
      ∀ b, resolveSegs n segs params chain nf acc = Outcome.notFound (some b) →
        b.hasNotFound = true := by
  intro segs
  induction segs with
  | nil =>
    intro n params chain nf acc hnf b hb
    have hnf2 : ∀ x, (if n.hasNotFound then some n else nf) = some x → x.hasNotFound = true := by
      intro x hx
      by_cases h : n.hasNotFound = true
      · simp only [if_pos h, Option.some.injEq] at hx
        exact hx ▸ h
      · simp only [Bool.not_eq_true] at h
        simp only [h, Bool.false_eq_true, if_false] at hx
        exact hnf x hx
    simp only [resolveSegs] at hb
    split at hb
    · simp at hb
    · simp only [Outcome.notFound.injEq] at hb
      exact hnf2 b hb
  | cons s rest ih =>
    intro n params chain nf acc hnf b hb
    have hnf2 : ∀ x, (if n.hasNotFound then some n else nf) = some x → x.hasNotFound = true := by
      intro x hx
      by_cases h : n.hasNotFound = true
      · simp only [if_pos h, Option.some.injEq] at hx
        exact hx ▸ h
      · simp only [Bool.not_eq_true] at h
        simp only [h, Bool.false_eq_true, if_false] at hx
        exact hnf x hx
    simp only [resolveSegs] at hb
    cases hs : findStaticIn (effChildren n) s with
    | some c =>
      simp only [hs] at hb
      exact ih c params (chain ++ [n]) _ _ hnf2 b hb
    | none =>
      simp only [hs] at hb
      cases hd : findDynamicIn (effChildren n) with
      | some pc =>
        obtain ⟨pn, c⟩ := pc
        simp only [hd] at hb
        exact ih c _ (chain ++ [n]) _ _ hnf2 b hb
      | none =>
        simp only [hd] at hb
        cases hc : findCatchAllIn (effChildren n) with
        | some pc =>
          obtain ⟨pn, c⟩ := pc
          simp only [hc] at hb
          split at hb
          · simp at hb
          · simp only [Outcome.notFound.injEq] at hb
            by_cases h : c.hasNotFound = true
            · simp only [if_pos h, Option.some.injEq] at hb
              exact hb ▸ h
            · simp only [Bool.not_eq_true] at h
              simp only [h, Bool.false_eq_true, if_false] at hb
              exact hnf2 b hb
        | none =>
          simp only [hc] at hb
          simp only [Outcome.notFound.injEq] at hb
          exact hnf2 b hb

/-- A NotFound result of full resolution comes from the base matcher
unchanged: interception can only replace a successful match. -/
theorem resolve_notFound_base (t : RouteNode) (ev : NavEvent) (x : Option RouteNode)
    (h : (resolve t ev).outcome = Outcome.notFound x) :
    baseOutcome t ev.target.path = Outcome.notFound x := by
  simp only [resolve] at h
  by_cases hb : ev.isClientTransition = true
  · simp only [hb, if_true] at h
    cases ho : ev.origin with
    | none => simp only [ho] at h; exact h
    | some op =>
      simp only [ho] at h
      cases hbase : baseOutcome t ev.target.path with
      | ok chain leaf params slotResults =>
        simp only [hbase] at h
        cases hl : ev.target.path.getLast? with
        | none => simp only [hl] at h; exact hbase ▸ h
        | some seg =>
          simp only [hl] at h
          cases hp : pickIntercept t chain seg op with
          | some iN => simp only [hp] at h; exact absurd h (by simp)
          | none => simp only [hp] at h; exact absurd h (by simp)
      | notFound bd =>
        simp only [hbase] at h
        exact hbase ▸ h
  · simp only [Bool.not_eq_true] at hb
    simp only [hb, Bool.false_eq_true, if_false] at h
    exact h

/-- Independence of slot resolution: the assignment recorded for a slot name
is exactly the resolution of that slot subtree against the suffix, whatever
the sibling slots contain. -/
theorem slots_lookup : ∀ (cs : Children) (suffix : List String) (name : String),
    lookupA (resolveSlots cs suffix) name
      = (lookupC cs name).map (fun sub => matchSlot sub suffix)
  | .nil, _, _ => rfl
  | .cons k v rest, suffix, name => by
    by_cases hk : k = name
    · simp [resolveSlots, lookupA, lookupC, hk]
    · simp [resolveSlots, lookupA, lookupC, hk, slots_lookup rest suffix name]

/-- C1: interception only applies on client transitions. The resolved URL
reported for history purposes is always the target path. When
isClientTransition is false the matched chain contains no intercept node at
all (beyond possibly the root itself). On the concrete tree holding an
interceptDepth zero node and a real node for the feed photo path, a direct
load yields the real node while a client transition from the consistent feed
origin yields the intercept node, and both report the target path as the
resolved URL. -/
theorem interception_client_only :
    (∀ (t : RouteNode) (ev : NavEvent), (resolve t ev).url = ev.target.path)
    ∧ (∀ (t : RouteNode) (ev : NavEvent), ev.isClientTransition = false →
        ∀ m ∈ chainOf ((resolve t ev).outcome), m = t ∨ m.kind ≠ SegKind.intercept)
    ∧ leafOf ((resolve feedTree evDirect).outcome) = some photoNode
    ∧ (resolve feedTree evDirect).url = ["feed", "photo"]
    ∧ leafOf ((resolve feedTree evClient).outcome) = some interceptPhoto
    ∧ (resolve feedTree evClient).url = ["feed", "photo"] := by
  refine ⟨fun t ev => rfl, ?_, rfl, rfl, rfl, rfl⟩
  intro t ev hev m hm
  have hout : (resolve t ev).outcome = baseOutcome t ev.target.path := by
    simp [resolve, hev]
  rw [hout] at hm
  rcases resolveSegs_chain ev.target.path t [] [] none [] m hm with h | h | h
  · simp at h
  · exact Or.inl h
  · right
    rcases h with h | h | h <;> (rw [h]; decide)

/-- Witness for C1: the second conjunct applied to the concrete direct-load
navigation on the feed tree, discharging its hypotheses there. -/
theorem interception_client_only_witness :
    (evDirect.isClientTransition = false
      ∧ photoNode ∈ chainOf ((resolve feedTree evDirect).outcome))
    ∧ (photoNode = feedTree ∨ photoNode.kind ≠ SegKind.intercept) := by
  have hm : photoNode ∈ chainOf ((resolve feedTree evDirect).outcome) := by
    rw [show chainOf ((resolve feedTree evDirect).outcome)
        = [feedTree, feedNode, photoNode] from rfl]
    simp
  exact ⟨⟨rfl, hm⟩, interception_client_only.2.1 feedTree evDirect rfl photoNode hm⟩

/-- C2: resolution is deterministic and idempotent: resolving the same pair
of route tree and navigation event twice yields structurally identical
resolved routes. -/
theorem resolve_deterministic (t1 t2 : RouteNode) (e1 e2 : NavEvent)
    (ht : t1 = t2) (he : e1 = e2) : resolve t1 e1 = resolve t2 e2 := by
  rw [ht, he]

/-- Witness for C2 at a concrete tree and navigation event. -/
theorem resolve_deterministic_witness :
    (feedTree = feedTree ∧ evClient = evClient)
    ∧ resolve feedTree evClient = resolve feedTree evClient :=
  ⟨⟨rfl, rfl⟩, resolve_deterministic feedTree feedTree evClient evClient rfl rfl⟩

/-- C3: for the catch-all declared under the docs segment, resolving the
docs path followed by any three segments binds the slug parameter to the
ordered three-element sequence of those segments, and resolving the docs
path alone, leaving zero segments for the catch-all, is NotFound under the
default zero-segment policy. -/
theorem catchAll_binding :
    (∀ a b c : String,
      (resolve docsTree (navTo ["docs", a, b, c])).outcome
        = Outcome.ok [docsTree, docsNode, slugNode] slugNode
            [("slug", PVal.seq [a, b, c])] [])
    ∧ (resolve docsTree (navTo ["docs"])).outcome = Outcome.notFound none :=
  ⟨fun _ _ _ => rfl, rfl⟩

/-- C4: query parameters never influence what layouts receive: for any tree
and any two navigation events differing only in the query string, the
resolution outcome and the inputs delivered to every layout are identical,
while on the concrete articles tree the leaf page input does differ between
the two query strings, exhibiting the intended asymmetry. -/
theorem query_noninterference :
    (∀ (t : RouteNode) (p : List String) (q1 q2 : List (String × String))
      (o : Option (List String)) (b : Bool),
      (resolve t ⟨⟨p, q1⟩, o, b⟩).outcome = (resolve t ⟨⟨p, q2⟩, o, b⟩).outcome
      ∧ layoutInputs (resolve t ⟨⟨p, q1⟩, o, b⟩) = layoutInputs (resolve t ⟨⟨p, q2⟩, o, b⟩))
    ∧ pageInput (resolve articlesTree evLangEn) ≠ pageInput (resolve articlesTree evLangEs) :=
  ⟨fun _ _ _ _ _ _ => ⟨rfl, rfl⟩, by decide⟩

/-- C5: parallel slots resolve independently: the assignment of each slot
name is a function of that slot subtree and the suffix alone, and in the
concrete tree where the slot named at-a declares a default-fallback and the
slot named at-b declares none, neither matching the remaining suffix,
resolution assigns the fallback to the first, the SlotUnresolved marker to
the second, the implicit children slot still matches its page, and the
overall resolution still succeeds. -/
theorem parallel_slots_independent :
    (∀ (cs : Children) (suffix : List String) (name : String),
      lookupA (resolveSlots cs suffix) name
        = (lookupC cs name).map (fun sub => matchSlot sub suffix))
    ∧ (resolve xyTree (navTo ["x", "y"])).outcome
        = Outcome.ok [xyTree, xNode, yNode] yNode []
            [("@a", SlotResult.fallback slotARoot), ("@b", SlotResult.unresolved)] :=
  ⟨slots_lookup, rfl⟩

/-- C6: a resolution with no matching child and no catch-all terminates in
the NotFound variant of the result carrying the nearest ancestor that
declares a not-found boundary: every boundary node carried by a NotFound
result declares one, the concrete mismatch below the boundary-declaring
node is scoped to that node, and a mismatch at the root with no declared
boundary falls back to the global marker. -/
theorem notFound_boundary :
    (∀ (t : RouteNode) (ev : NavEvent) (b : RouteNode),
      (resolve t ev).outcome = Outcome.notFound (some b) → b.hasNotFound = true)
    ∧ (resolve nfTree (navTo ["a", "b", "zzz"])).outcome = Outcome.notFound (some aNode)
    ∧ (resolve nfTree (navTo ["zzz"])).outcome = Outcome.notFound none := by
  refine ⟨?_, rfl, rfl⟩
  intro t ev b h
  have hb := resolve_notFound_base t ev (some b) h
  exact resolveSegs_nf ev.target.path t [] [] none [] (fun x hx => by cases hx) b hb

/-- Witness for C6: the general conjunct applied to the concrete mismatch
below the boundary-declaring node. -/
theorem notFound_boundary_witness :
    ((resolve nfTree (navTo ["a", "b", "zzz"])).outcome = Outcome.notFound (some aNode))
    ∧ aNode.hasNotFound = true :=
  ⟨rfl, notFound_boundary.1 nfTree (navTo ["a", "b", "zzz"]) aNode rfl⟩

/-- Counterexample to C7 as stated: a tree containing the auth group with a
static login page and additionally a dynamic root child. The dynamic child
matches the literal group-named segment, so resolving the group-named path
is a successful match of the dynamic subtree login, not NotFound, even
though the plain login path still resolves to the group login. -/
theorem group_url_counterexample :
    isNotFoundO ((resolve groupCexTree (navTo ["(auth)", "login"])).outcome) = false
    ∧ leafOf ((resolve groupCexTree (navTo ["(auth)", "login"])).outcome) = some loginNode2
    ∧ leafOf ((resolve groupCexTree (navTo ["login"])).outcome) = some loginNode :=
  ⟨rfl, rfl, rfl⟩

/-- C7 amended: in a tree whose root has the auth group as its only child
and whose group has the static login page node as its only child, resolving
the login path yields that login node as the matched leaf and resolving the
group-named path yields NotFound, for every content of the login subtree. -/
theorem group_segments_amended :
    ∀ (d : Option Nat) (isg : String) (nf df : Bool) (cs sl : Children),
      leafOf ((resolve (authLoginTree (RouteNode.mk SegKind.static d isg true nf df cs sl))
          (navTo ["login"])).outcome)
        = some (RouteNode.mk SegKind.static d isg true nf df cs sl)
      ∧ isNotFoundO ((resolve (authLoginTree (RouteNode.mk SegKind.static d isg true nf df cs sl))
          (navTo ["(auth)", "login"])).outcome) = true :=
  fun _ _ _ _ _ _ => ⟨rfl, rfl⟩

/-- Counterexample to C8 as stated: a tree containing the private lib node,
which itself has a page, next to a dynamic root child. Resolving the lib
path is a successful match of the dynamic child, not NotFound, so NotFound
does not hold regardless of tree contents. -/
theorem private_url_counterexample :
    isNotFoundO ((resolve privCexTree (navTo ["_lib"])).outcome) = false :=
  rfl

/-- C8 amended: private nodes are excluded from matching, in that the chain
matched by the base matcher never contains a private node beyond possibly
the root itself; and when the private lib node is the only child of the
root, every path below the root, in particular the lib path and everything
under it, resolves to NotFound whatever the private subtree contains. -/
theorem private_segments_amended :
    (∀ (t : RouteNode) (p : List String) (m : RouteNode),
      m ∈ chainOf (baseOutcome t p) → m = t ∨ m.kind ≠ SegKind.priv)
    ∧ ∀ (d : Option Nat) (isg : String) (hp hn hd : Bool) (cs sl : Children)
        (s : String) (rest : List String),
        isNotFoundO ((resolve (onlyPrivTree (RouteNode.mk SegKind.priv d isg hp hn hd cs sl))
            (navTo (s :: rest))).outcome) = true := by
  constructor
  · intro t p m hm
    rcases resolveSegs_chain p t [] [] none [] m hm with h | h | h
    · simp at h
    · exact Or.inl h
    · right
      rcases h with h | h | h <;> (rw [h]; decide)
  · intro d isg hp hn hd cs sl s rest
    rfl

/-- Witness for C8 amended: the general conjunct applied to a concrete chain
membership. -/
theorem private_segments_amended_witness :
    (photoNode ∈ chainOf (baseOutcome feedTree ["feed", "photo"]))
    ∧ (photoNode = feedTree ∨ photoNode.kind ≠ SegKind.priv) := by
  have hm : photoNode ∈ chainOf (baseOutcome feedTree ["feed", "photo"]) := by
    rw [show chainOf (baseOutcome feedTree ["feed", "photo"])
        = [feedTree, feedNode, photoNode] from rfl]
    simp
  exact ⟨hm, private_segments_amended.1 feedTree ["feed", "photo"] photoNode hm⟩

/-- C9: the Review page invokes the notFound boundary exactly when the
reviewId string parses, as parseInt of JavaScript parses it, to an integer
of at least 1000; every other reviewId, including non-numeric strings whose
parse fails, renders the heading built from reviewId and productId. -/
theorem review_notFound_iff :
    ∀ reviewId productId : String,
      (Review reviewId productId = ReviewOutput.notFoundCall ↔
        ∃ v, parseIntJS reviewId = some v ∧ 1000 ≤ v)
      ∧ (Review reviewId productId = ReviewOutput.notFoundCall ∨
          Review reviewId productId = ReviewOutput.heading reviewId productId) := by
  intro rid pid
  unfold Review
  cases h : parseIntJS rid with
  | none =>
    refine ⟨⟨fun hcontra => absurd hcontra (by simp), ?_⟩, Or.inr rfl⟩
    rintro ⟨v, hv, _⟩
    exact Option.noConfusion hv
  | some v =>
    by_cases hv : 1000 ≤ v
    · refine ⟨⟨fun _ => ⟨v, rfl, hv⟩, fun _ => ?_⟩, Or.inl ?_⟩
      · simp only [if_pos hv]
      · simp only [if_pos hv]
    · refine ⟨⟨fun hcontra => ?_, ?_⟩, Or.inr ?_⟩
      · exact absurd hcontra (by simp [hv])
      · rintro ⟨w, hw, hle⟩
        injection hw with h2
        exact absurd (h2 ▸ hle) hv
      · simp [hv]

/-- C10: with isAuthenticated hard-coded to false, ComplexDashboardLayout
returns exactly the login slot content for every combination of slot
contents, and its output does not depend on the children, users, revenue or
notifications slots at all. -/
theorem dashboard_login_only :
    ∀ (children users revenue notifications login c2 u2 r2 n2 : RNode),
      ComplexDashboardLayout children users revenue notifications login = login
      ∧ ComplexDashboardLayout children users revenue notifications login
        = ComplexDashboardLayout c2 u2 r2 n2 login :=
  fun _ _ _ _ _ _ _ _ _ => ⟨rfl, rfl⟩

end Routing
